import Mathlib

set_option maxHeartbeats 1000000
set_option maxRecDepth 4000

/-- File paths are modelled as lists of characters (Go strings). -/
abbrev Fpath := List Char

/-- Symlink record from src/mgr/symlink/mgr.go: the pair of the target path
(the real file) and the link path (where the symbolic link lives). -/
structure Symlink where
  Target : Fpath
  Link : Fpath
deriving DecidableEq

/-- Config from src/mgr/symlink/mgr.go: the persisted document holding the
ordered list of symlink records. -/
structure Config where
  Symlinks : List Symlink
deriving DecidableEq

/-- Configuration context threaded through the manager (conf.Config fields
used by src/mgr/symlink/mgr.go): user home, dotfiles root, working dir. -/
structure Conf where
  userHome : Fpath
  dotfiles : Fpath
  workingDir : Fpath
deriving DecidableEq

/-- Boolean test that the first list starts with the second one
(Go strings.HasPrefix, used to model leftmost substring matching). -/
def startsWith : Fpath → Fpath → Bool
  | _, [] => true
  | [], _ :: _ => false
  | c :: s, p :: ps => decide (p = c) && startsWith s ps

/-- Go strings.Replace(s, old, new, 1), the operation underlying ExpandHome
and UnexpandHome in src/run/run.go (package path): replace the leftmost
occurrence of old in s by new; an empty old matches at the beginning. -/
def replaceFirst : Fpath → Fpath → Fpath → Fpath
  | s, [], r => r ++ s
  | [], _ :: _, _ => []
  | c :: s, p :: ps, r =>
    if startsWith (c :: s) (p :: ps) then r ++ (c :: s).drop (p :: ps).length
    else c :: replaceFirst s (p :: ps) r

/-- ExpandHome from src/run/run.go (package path): replaces the first
occurrence of the tilde character with the home directory. -/
def ExpandHome (s home : Fpath) : Fpath := replaceFirst s ['~'] home

/-- UnexpandHome from src/run/run.go (package path): replaces the first
occurrence of the home directory with the tilde character. -/
def UnexpandHome (s home : Fpath) : Fpath := replaceFirst s home ['~']

/-- Filesystem entries: a regular file, a directory, or a symbolic link
recording the path it points at (the injectable filesystem abstraction). -/
inductive Entry where
  | file : Entry
  | dir : Entry
  | symlinkTo : Fpath → Entry
deriving DecidableEq

/-- The filesystem is an association list from paths to entries. -/
abbrev Fs := List (Fpath × Entry)

/-- Look up the entry stored at a path. -/
def lookupFs : Fs → Fpath → Option Entry
  | [], _ => none
  | (k, v) :: rest, p => if k = p then some v else lookupFs rest p

/-- Store an entry at a path, replacing any existing entry there. -/
def setFs : Fs → Fpath → Entry → Fs
  | [], p, e => [(p, e)]
  | (k, v) :: rest, p, e => if k = p then (p, e) :: rest else (k, v) :: setFs rest p e

/-- Delete the entry stored at a path. -/
def removeFs : Fs → Fpath → Fs
  | [], _ => []
  | (k, v) :: rest, p => if k = p then rest else (k, v) :: removeFs rest p

/-- Error values distinguished by the symlink set manager and its
collaborators; wrap models errors.Wrapf adding operation context. -/
inductive Err where
  | noSuchFile : Err
  | readFailed : Err
  | saveFailed : Err
  | notExist : Err
  | conflict : Err
  | notASymlink : Err
  | notFoundInConfig : Fpath → Err
  | wrap : Err → Err
deriving DecidableEq

/-- The world state a manager operation acts on: the filesystem, the persisted
configuration file (none models an absent file), plus two fault-injection
flags for the persistence collaborator: readCorrupt makes reads fail with an
error other than the distinguished no-such-file condition, saveFails makes
writes fail. -/
structure World where
  fs : Fs
  store : Option Config
  readCorrupt : Bool
  saveFails : Bool
deriving DecidableEq

/-- Modelled from the spec: the persistence collaborator ReadTypedRecord
(file.ReadToml is not under src/): reading an absent file yields the
distinguished no-such-file error, a corrupt file yields a different error;
in both cases the destination keeps its zero value. -/
def readStore (w : World) : Config × Option Err :=
  if w.readCorrupt then (⟨[]⟩, some Err.readFailed)
  else
    match w.store with
    | none => (⟨[]⟩, some Err.noSuchFile)
    | some c => (c, none)

/-- Modelled from the spec: the persistence collaborator SaveTypedRecord
(file.SaveToml is not under src/): on success the stored document is
replaced, on failure the store is left as it was. -/
def saveStore (c : Config) (w : World) : Option Err × World :=
  if w.saveFails then (some Err.saveFailed, w) else (none, { w with store := some c })

/-- True leading slash check: the spec's notion of an absolute path. -/
def isAbs : Fpath → Bool
  | '/' :: _ => true
  | _ => false

/-- Modelled from the spec: path.AsAbsolute (not under src/) resolves the
given path against the working directory and fails with a does-not-exist
error when nothing is found at the resolved path. -/
def AsAbsolute (fs : Fs) (wd p : Fpath) : Except Err Fpath :=
  let abs := if isAbs p then p else wd ++ '/' :: p
  if (lookupFs fs abs).isSome then Except.ok abs else Except.error Err.notExist

/-- Modelled from the spec: Link Manager New (the link manager source is not
under src/) derives a complete symlink pair from partial input; a field that
cannot be derived (input not absolute or not under the respective root) is
left as the empty string, silently. -/
def LinkManager.New (cfg : Conf) (target link : Fpath) : Symlink :=
  if target ≠ [] ∧ link ≠ [] then ⟨target, link⟩
  else if target = [] ∧ link = [] then ⟨[], []⟩
  else if link = [] then
    if isAbs target && startsWith target cfg.dotfiles then
      ⟨target, cfg.userHome ++ target.drop cfg.dotfiles.length⟩
    else ⟨target, []⟩
  else
    if isAbs link && startsWith link cfg.userHome then
      ⟨cfg.dotfiles ++ link.drop cfg.userHome.length, link⟩
    else ⟨[], link⟩

/-- Modelled from the spec: Link Manager Expand (the link manager source is
not under src/) applies the home-directory expansion of src/run/run.go
independently to both fields. -/
def LinkManager.Expand (home : Fpath) (s : Symlink) : Symlink :=
  ⟨ExpandHome s.Target home, ExpandHome s.Link home⟩

/-- Modelled from the spec: Link Manager Unexpand (the link manager source is
not under src/) applies the home-directory unexpansion of src/run/run.go
independently to both fields. -/
def LinkManager.Unexpand (home : Fpath) (s : Symlink) : Symlink :=
  ⟨UnexpandHome s.Target home, UnexpandHome s.Link home⟩

/-- Modelled from the spec: Link Manager Ensure (the link manager source is
not under src/) converges the filesystem so the link is a symlink to the
target: an already-correct symlink is a no-op, a stale symlink is replaced,
a regular file or directory at the link is a conflict error, an absent link
is created (parent directory creation is modelled as always succeeding, as
the spec requires MkdirAll not to fail on existing directories). -/
def LinkManager.Ensure (s : Symlink) (fs : Fs) : Except Err Fs :=
  match lookupFs fs s.Link with
  | some (Entry.symlinkTo t) =>
    if t = s.Target then Except.ok fs
    else Except.ok (setFs fs s.Link (Entry.symlinkTo s.Target))
  | some Entry.file => Except.error Err.conflict
  | some Entry.dir => Except.error Err.conflict
  | none => Except.ok (setFs fs s.Link (Entry.symlinkTo s.Target))

/-- Modelled from the spec: Link Manager Remove (the link manager source is
not under src/) reads the symlink at the given link path, captures its
current target, deletes only the symlink entry, and returns the captured
pair; it fails when the path is absent or not a symlink. The second argument
mirrors the call shape in src/mgr/symlink/mgr.go and is not consulted. -/
def LinkManager.Remove (fs : Fs) (link target : Fpath) : Except Err (Symlink × Fs) :=
  match lookupFs fs link with
  | some (Entry.symlinkTo t) => Except.ok (⟨t, link⟩, removeFs fs link)
  | some Entry.file => Except.error Err.notASymlink
  | some Entry.dir => Except.error Err.notASymlink
  | none => Except.error Err.notASymlink

/-- Field-wise equality of symlink records exactly as compared in
src/mgr/symlink/mgr.go (Target and Link compared separately). -/
def eqSymlink (a b : Symlink) : Bool :=
  decide (a.Target = b.Target) && decide (a.Link = b.Link)

/-- readConfiguration from src/mgr/symlink/mgr.go: reads the persisted set;
errors are reported alongside the zero-value-populated document. -/
def Manager.readConfiguration (w : World) : Config × Option Err := readStore w

/-- The storage step of addToConfiguration from src/mgr/symlink/mgr.go:
unexpand the new record, return it unchanged if an equal record exists,
otherwise append it and persist. -/
def addStore (cfg : Conf) (n : Symlink) (saved : Config) (w : World) :
    Except Err Symlink × World :=
  let unexpanded := LinkManager.Unexpand cfg.userHome n
  if saved.Symlinks.any (fun ex => eqSymlink unexpanded ex) then (Except.ok unexpanded, w)
  else
    match saveStore ⟨saved.Symlinks ++ [unexpanded]⟩ w with
    | (some e, w') => (Except.error e, w')
    | (none, w') => (Except.ok unexpanded, w')

/-- addToConfiguration from src/mgr/symlink/mgr.go: read the persisted set,
treat the no-such-file condition as empty existing state, return any other
read error, then store the record. -/
def Manager.addToConfiguration (cfg : Conf) (n : Symlink) (w : World) :
    Except Err Symlink × World :=
  let rd := Manager.readConfiguration w
  match rd.2 with
  | some e => if e = Err.noSuchFile then addStore cfg n rd.1 w else (Except.error e, w)
  | none => addStore cfg n rd.1 w

/-- Index of the last record equal to the given one (the loop in
removeFromConfiguration of src/mgr/symlink/mgr.go keeps overwriting the
index, so the last match wins). -/
def findLastIdx : List Symlink → Symlink → Option Nat
  | [], _ => none
  | x :: rest, u =>
    match findLastIdx rest u with
    | some i => some (i + 1)
    | none => if eqSymlink u x then some 0 else none

/-- The storage step of removeFromConfiguration from src/mgr/symlink/mgr.go:
unexpand the removed record, warn and succeed when it is not in the set,
otherwise drop the matched index and persist. -/
def removeStore (cfg : Conf) (s : Symlink) (config : Config) (w : World) :
    Except Err (Option Symlink) × World :=
  let unexpanded := LinkManager.Unexpand cfg.userHome s
  match findLastIdx config.Symlinks unexpanded with
  | none => (Except.ok (some unexpanded), w)
  | some i =>
    match saveStore ⟨config.Symlinks.take i ++ config.Symlinks.drop (i + 1)⟩ w with
    | (some e, w') => (Except.error e, w')
    | (none, w') => (Except.ok (some unexpanded), w')

/-- removeFromConfiguration from src/mgr/symlink/mgr.go: an absent
configuration file is a warn-only soft success; any other read outcome
proceeds against the document read (zero value after a non-no-such-file
read error, which the source does not check). -/
def Manager.removeFromConfiguration (cfg : Conf) (s : Symlink) (w : World) :
    Except Err (Option Symlink) × World :=
  let rd := Manager.readConfiguration w
  match rd.2 with
  | some Err.noSuchFile => (Except.ok none, w)
  | _ => removeStore cfg s rd.1 w

/-- Manager.Add from src/mgr/symlink/mgr.go: resolve the target, build the
pair via Link Manager New, ensure it on the filesystem (wrapping an ensure
failure), then record it in the configuration; the value returned on success
is the symlink built by New, not the stored unexpanded record. -/
def Manager.Add (cfg : Conf) (target newLocation : Fpath) (w : World) :
    Except Err Symlink × World :=
  match AsAbsolute w.fs cfg.workingDir target with
  | Except.error e => (Except.error e, w)
  | Except.ok absTarget =>
    let symlink := LinkManager.New cfg absTarget newLocation
    match LinkManager.Ensure symlink w.fs with
    | Except.error e => (Except.error (Err.wrap e), w)
    | Except.ok fs2 =>
      let w2 := { w with fs := fs2 }
      match Manager.addToConfiguration cfg symlink w2 with
      | (Except.error e, w3) => (Except.error e, w3)
      | (Except.ok _, w3) => (Except.ok symlink, w3)

/-- Manager.Remove from src/mgr/symlink/mgr.go: resolve the link, read the
persisted set (a read failure is only logged), scan for a record whose Link
equals the unexpanded resolved link, fail with a not-found error when there
is none, otherwise expand the match, remove the filesystem symlink (wrapping
a failure and leaving the set untouched), and finally delete the record.
The matched record is taken through a pointer to the loop variable, which
after the loop holds the final element of the list whenever any match
occurred. -/
def Manager.Remove (cfg : Conf) (link : Fpath) (w : World) : Option Err × World :=
  match AsAbsolute w.fs cfg.workingDir link with
  | Except.error e => (some e, w)
  | Except.ok absLink =>
    let config := (Manager.readConfiguration w).1
    let link2 := UnexpandHome absLink cfg.userHome
    let matching : Option Symlink :=
      if config.Symlinks.any (fun x => decide (x.Link = link2)) then config.Symlinks.getLast?
      else none
    match matching with
    | none => (some (Err.notFoundInConfig link2), w)
    | some m =>
      let symlink := LinkManager.Expand cfg.userHome m
      match LinkManager.Remove w.fs absLink symlink.Target with
      | Except.error e => (some (Err.wrap e), w)
      | Except.ok (s, fs2) =>
        let w2 := { w with fs := fs2 }
        match Manager.removeFromConfiguration cfg s w2 with
        | (Except.error e, w3) => (some e, w3)
        | (Except.ok _, w3) => (none, w3)

/-- Manager.Dump from src/mgr/symlink/mgr.go: a stub that returns the empty
string and no error without touching any state. -/
def Manager.Dump (cfg : Conf) (w : World) : (Fpath × Option Err) × World :=
  (([], none), w)

/-- Number of records in the persisted document equal to the given one. -/
def pairCount (st : Option Config) (u : Symlink) : Nat :=
  ((st.getD ⟨[]⟩).Symlinks).countP (fun x => eqSymlink u x)

/-- User home directory used in the concrete scenarios. -/
def cH : Fpath := ['/', 'h']

/-- Dotfiles root used in the concrete scenarios. -/
def cD : Fpath := ['/', 'h', '/', 'd']

/-- A target path under the dotfiles root. -/
def cTf : Fpath := ['/', 'h', '/', 'd', '/', 'f']

/-- The link path derived for cTf. -/
def cLf : Fpath := ['/', 'h', '/', 'f']

/-- The unexpanded form of cTf. -/
def uTf : Fpath := ['~', '/', 'd', '/', 'f']

/-- The unexpanded form of cLf. -/
def uLf : Fpath := ['~', '/', 'f']

/-- Configuration context for the concrete scenarios. -/
def conf0 : Conf := ⟨cH, cD, cH⟩

/-- The expanded symlink record of the concrete scenarios. -/
def s0 : Symlink := ⟨cTf, cLf⟩

/-- The unexpanded symlink record of the concrete scenarios. -/
def u0 : Symlink := ⟨uTf, uLf⟩

lemma startsWith_append (p t : Fpath) : startsWith (p ++ t) p = true := by
  induction p with
  | nil => cases t <;> rfl
  | cons q qs ih => simpa [startsWith] using ih

lemma replaceFirst_left (p t r : Fpath) : replaceFirst (p ++ t) p r = r ++ t := by
  cases p with
  | nil => cases t <;> rfl
  | cons q qs =>
    show replaceFirst (q :: (qs ++ t)) (q :: qs) r = r ++ t
    have hsw : startsWith (q :: (qs ++ t)) (q :: qs) = true := startsWith_append (q :: qs) t
    simp [replaceFirst, hsw, List.drop_left]

lemma replaceFirst_cons_self (c : Char) (t r : Fpath) :
    replaceFirst (c :: t) [c] r = r ++ t :=
  replaceFirst_left [c] t r

/-- Claim C7: for every symlink whose Target and Link both lie under the home
directory (expanded form beginning with the absolute home path, unexpanded
form beginning with the tilde), expanding after unexpanding and unexpanding
after expanding both give back the original record, the substitution acting
independently on the two fields. -/
theorem c7_expand_unexpand_roundtrip (home t l : Fpath) :
    LinkManager.Expand home (LinkManager.Unexpand home ⟨home ++ t, home ++ l⟩) =
      ⟨home ++ t, home ++ l⟩ ∧
    LinkManager.Unexpand home (LinkManager.Expand home ⟨'~' :: t, '~' :: l⟩) =
      ⟨'~' :: t, '~' :: l⟩ := by
  constructor
  · simp [LinkManager.Expand, LinkManager.Unexpand, ExpandHome, UnexpandHome,
      replaceFirst_left, replaceFirst_cons_self]
  · simp [LinkManager.Expand, LinkManager.Unexpand, ExpandHome, UnexpandHome,
      replaceFirst_left, replaceFirst_cons_self]

/-- Claim C8, counterexample: the path "/a/~b" does not begin with a tilde,
yet ExpandHome with home "/h" rewrites its embedded tilde, producing
"/a//hb" instead of returning the path unchanged. -/
theorem c8_counterexample :
    (['/', 'a', '~', 'b'] : Fpath).head? ≠ some '~' ∧
    ExpandHome ['/', 'a', '~', 'b'] cH ≠ ['/', 'a', '~', 'b'] ∧
    ExpandHome ['/', 'a', '~', 'b'] cH = ['/', 'a', '/', 'h', 'b'] := by
  refine ⟨by decide, by decide, by decide⟩

/-- Claim C8 as amended: ExpandHome textually replaces the first occurrence
of the tilde anywhere in the string with the home path, not only a leading
one; a string containing no tilde passes through unchanged, and occurrences
after the first are not touched. -/
theorem c8_expand_first_occurrence (s1 s2 home : Fpath) (h : '~' ∉ s1) :
    ExpandHome s1 home = s1 ∧
    ExpandHome (s1 ++ '~' :: s2) home = s1 ++ home ++ s2 := by
  induction s1 with
  | nil =>
    refine ⟨rfl, ?_⟩
    show replaceFirst ('~' :: s2) ['~'] home = home ++ s2
    exact replaceFirst_cons_self '~' s2 home
  | cons c s ih =>
    have hc : c ≠ '~' := fun hcc => h (by simp [hcc])
    have hs : '~' ∉ s := fun hm => h (List.mem_cons_of_mem c hm)
    have hne : ¬('~' = c) := fun hcc => hc (Eq.symm hcc)
    obtain ⟨ih1, ih2⟩ := ih hs
    have hsw : startsWith (c :: s) ['~'] = false := by
      simp [startsWith, hne]
    constructor
    · show replaceFirst (c :: s) ['~'] home = c :: s
      simp [replaceFirst, hsw]
      exact ih1
    · show replaceFirst (c :: (s ++ '~' :: s2)) ['~'] home = (c :: s) ++ home ++ s2
      have hsw2 : startsWith (c :: (s ++ '~' :: s2)) ['~'] = false := by
        simp [startsWith, hne]
      simp [replaceFirst, hsw2]
      simpa using ih2

/-- Claim C8 witness: instantiating the amended claim on the tilde-free
prefix "/a" with home "/h". -/
theorem c8_expand_first_occurrence_witness :
    ExpandHome ['/', 'a'] cH = ['/', 'a'] ∧
    ExpandHome (['/', 'a'] ++ '~' :: ['b']) cH = ['/', 'a'] ++ cH ++ ['b'] :=
  c8_expand_first_occurrence ['/', 'a'] ['b'] cH (by decide)

/-- Claim C2, counterexample: in a world whose filesystem holds a symbolic
link, the set manager's Dump returns the empty string and no error and
leaves the world unchanged — it performs no survey, so the discovered
symlink is not reflected in any returned set. -/
theorem c2_counterexample :
    Manager.Dump conf0 ⟨[(cLf, Entry.symlinkTo cTf)], none, false, false⟩ =
      (([], none), ⟨[(cLf, Entry.symlinkTo cTf)], none, false, false⟩) ∧
    lookupFs [(cLf, Entry.symlinkTo cTf)] cLf = some (Entry.symlinkTo cTf) := by
  refine ⟨rfl, by decide⟩

/-- Claim C2 as amended: the set manager's Dump takes no search roots or
depth, walks no directories, consults no state, and always returns the empty
string with no error, leaving the world unchanged. -/
theorem c2_dump_noop (cfg : Conf) (w : World) :
    Manager.Dump cfg w = (([], none), w) := rfl

lemma lookupFs_setFs (fs : Fs) (k q : Fpath) (v : Entry) :
    lookupFs (setFs fs k v) q = if k = q then some v else lookupFs fs q := by
  induction fs with
  | nil => simp [setFs, lookupFs]
  | cons hd rest ih =>
    obtain ⟨k', v'⟩ := hd
    by_cases hk : k' = k
    · subst hk
      by_cases hq : k' = q <;> simp [setFs, lookupFs, hq]
    · by_cases hq : k' = q
      · subst hq
        have : ¬(k = k') := fun hc => hk hc.symm
        simp [setFs, lookupFs, hk, this]
      · simp [setFs, lookupFs, hk, hq, ih]

lemma ensure_ok_lookup (s : Symlink) (fs fs' : Fs)
    (h : LinkManager.Ensure s fs = Except.ok fs') :
    lookupFs fs' s.Link = some (Entry.symlinkTo s.Target) := by
  unfold LinkManager.Ensure at h
  cases heq : lookupFs fs s.Link with
  | none =>
    rw [heq] at h
    cases h
    simp [lookupFs_setFs]
  | some e =>
    rw [heq] at h
    cases e with
    | file => cases h
    | dir => cases h
    | symlinkTo t =>
      by_cases ht : t = s.Target
      · simp [ht] at h
        cases h
        rw [heq, ht]
      · simp [ht] at h
        cases h
        simp [lookupFs_setFs]

lemma ensure_preserves_isSome (s : Symlink) (fs fs' : Fs) (q : Fpath)
    (h : LinkManager.Ensure s fs = Except.ok fs')
    (h2 : (lookupFs fs q).isSome = true) : (lookupFs fs' q).isSome = true := by
  unfold LinkManager.Ensure at h
  cases heq : lookupFs fs s.Link with
  | none =>
    rw [heq] at h
    cases h
    rw [lookupFs_setFs]
    by_cases hq : s.Link = q <;> simp [hq, h2]
  | some e =>
    rw [heq] at h
    cases e with
    | file => cases h
    | dir => cases h
    | symlinkTo t =>
      by_cases ht : t = s.Target
      · simp [ht] at h
        cases h
        exact h2
      · simp [ht] at h
        cases h
        rw [lookupFs_setFs]
        by_cases hq : s.Link = q <;> simp [hq, h2]

lemma asAbsolute_ok_elim (fs : Fs) (wd p a : Fpath)
    (h : AsAbsolute fs wd p = Except.ok a) :
    a = (if isAbs p then p else wd ++ '/' :: p) ∧ (lookupFs fs a).isSome = true := by
  unfold AsAbsolute at h
  by_cases hc : (lookupFs fs (if isAbs p then p else wd ++ '/' :: p)).isSome = true
  · simp [hc] at h
    subst h
    exact ⟨rfl, hc⟩
  · simp [Bool.not_eq_true] at hc
    simp [hc] at h

lemma asAbsolute_stable (fs fs' : Fs) (wd p a : Fpath)
    (h : AsAbsolute fs wd p = Except.ok a)
    (h2 : (lookupFs fs' a).isSome = true) : AsAbsolute fs' wd p = Except.ok a := by
  obtain ⟨ha, _⟩ := asAbsolute_ok_elim fs wd p a h
  unfold AsAbsolute
  rw [← ha]
  show (if (lookupFs fs' a).isSome = true then Except.ok a else Except.error Err.notExist) =
    Except.ok a
  rw [h2]
  simp

lemma ensure_idem (s : Symlink) (fs fs' : Fs)
    (h : LinkManager.Ensure s fs = Except.ok fs') :
    LinkManager.Ensure s fs' = Except.ok fs' := by
  have hl := ensure_ok_lookup s fs fs' h
  unfold LinkManager.Ensure
  rw [hl]
  simp

/-- Claim C1, counterexample: with a target file present, an absent
configuration file and a persistence layer whose save fails, Add returns an
error, yet afterwards the ensured symlink exists on the filesystem while no
record for it is in the persisted set — the ensured symlink is not rolled
back when persisting fails after Ensure has run. -/
theorem c1_counterexample :
    Manager.Add conf0 cTf [] ⟨[(cTf, Entry.file)], none, false, true⟩ =
      (Except.error Err.saveFailed,
        ⟨[(cTf, Entry.file), (cLf, Entry.symlinkTo cTf)], none, false, true⟩) ∧
    lookupFs [(cTf, Entry.file), (cLf, Entry.symlinkTo cTf)] cLf =
      some (Entry.symlinkTo cTf) ∧
    pairCount (none : Option Config) u0 = 0 := by
  refine ⟨rfl, by decide, rfl⟩

/-- Claim C1 as amended: when Link Manager Ensure itself fails during Add,
the wrapped error is returned and the world — filesystem and persisted set —
is left exactly as it was, so no partial persistence occurs; the
rollback guarantee does not extend to a persistence failure after a
successful Ensure, where the ensured symlink remains with no record (see the
counterexample). -/
theorem c1_add_ensure_failure_rolled_back (cfg : Conf) (t loc absT : Fpath)
    (w : World) (e : Err)
    (h1 : AsAbsolute w.fs cfg.workingDir t = Except.ok absT)
    (h2 : LinkManager.Ensure (LinkManager.New cfg absT loc) w.fs = Except.error e) :
    Manager.Add cfg t loc w = (Except.error (Err.wrap e), w) := by
  unfold Manager.Add
  rw [h1]
  simp only [h2]

/-- Claim C1 witness: a regular file already sits at the link location, so
Ensure fails with the conflict error and Add returns it wrapped, changing
nothing. -/
theorem c1_add_ensure_failure_rolled_back_witness :
    Manager.Add conf0 cTf cLf ⟨[(cTf, Entry.file), (cLf, Entry.file)], none, false, false⟩ =
      (Except.error (Err.wrap Err.conflict),
        ⟨[(cTf, Entry.file), (cLf, Entry.file)], none, false, false⟩) :=
  c1_add_ensure_failure_rolled_back conf0 cTf cLf cTf
    ⟨[(cTf, Entry.file), (cLf, Entry.file)], none, false, false⟩ Err.conflict
    rfl rfl

/-- Claim C3: when the filesystem removal performed by Link Manager Remove
fails, Set Manager Remove returns that error wrapped and the world — in
particular the persisted set — is exactly the one it started from, so the
record for the link is still present afterwards. -/
theorem c3_remove_fs_failure_preserves_store (cfg : Conf) (link absLink : Fpath)
    (w : World) (m : Symlink) (e : Err)
    (h1 : AsAbsolute w.fs cfg.workingDir link = Except.ok absLink)
    (h2 : (Manager.readConfiguration w).1.Symlinks.any
      (fun x => decide (x.Link = UnexpandHome absLink cfg.userHome)) = true)
    (h3 : (Manager.readConfiguration w).1.Symlinks.getLast? = some m)
    (h4 : LinkManager.Remove w.fs absLink (LinkManager.Expand cfg.userHome m).Target =
      Except.error e) :
    Manager.Remove cfg link w = (some (Err.wrap e), w) := by
  unfold Manager.Remove
  rw [h1]
  simp only [h2, if_true, h3, h4]

/-- Claim C3 witness: a record for the link is persisted but the on-disk
entry was replaced by a plain file, so the filesystem removal fails and
Remove returns the wrapped error with the world unchanged. -/
theorem c3_remove_fs_failure_preserves_store_witness :
    Manager.Remove conf0 cLf
      ⟨[(cTf, Entry.file), (cLf, Entry.file)], some ⟨[u0]⟩, false, false⟩ =
      (some (Err.wrap Err.notASymlink),
        ⟨[(cTf, Entry.file), (cLf, Entry.file)], some ⟨[u0]⟩, false, false⟩) :=
  c3_remove_fs_failure_preserves_store conf0 cLf cLf
    ⟨[(cTf, Entry.file), (cLf, Entry.file)], some ⟨[u0]⟩, false, false⟩ u0
    Err.notASymlink rfl (by decide) rfl rfl

lemma remove_no_match (cfg : Conf) (link absLink : Fpath) (w : World)
    (h1 : AsAbsolute w.fs cfg.workingDir link = Except.ok absLink)
    (h2 : (Manager.readConfiguration w).1.Symlinks.any
      (fun x => decide (x.Link = UnexpandHome absLink cfg.userHome)) = false) :
    Manager.Remove cfg link w =
      (some (Err.notFoundInConfig (UnexpandHome absLink cfg.userHome)), w) := by
  unfold Manager.Remove
  rw [h1]
  simp only [h2, Bool.false_eq_true, if_false]

/-- Claim C4: when no record of the persisted set read has a Link equal to
the unexpanded resolved link, Remove returns the not-found-in-configuration
error and the world — filesystem included — is untouched, so the lookup
happens before any destructive filesystem action and Link Manager Remove
never runs. -/
theorem c4_remove_not_found (cfg : Conf) (link absLink : Fpath) (w : World)
    (h1 : AsAbsolute w.fs cfg.workingDir link = Except.ok absLink)
    (h2 : (Manager.readConfiguration w).1.Symlinks.any
      (fun x => decide (x.Link = UnexpandHome absLink cfg.userHome)) = false) :
    Manager.Remove cfg link w =
      (some (Err.notFoundInConfig (UnexpandHome absLink cfg.userHome)), w) :=
  remove_no_match cfg link absLink w h1 h2

/-- Claim C4 witness: the filesystem holds a symlink at the link path but the
persisted set is empty, so Remove fails with the not-found error and leaves
the world unchanged. -/
theorem c4_remove_not_found_witness :
    Manager.Remove conf0 cLf
      ⟨[(cLf, Entry.symlinkTo cTf)], some ⟨[]⟩, false, false⟩ =
      (some (Err.notFoundInConfig uLf),
        ⟨[(cLf, Entry.symlinkTo cTf)], some ⟨[]⟩, false, false⟩) := by
  have h := c4_remove_not_found conf0 cLf cLf
    ⟨[(cLf, Entry.symlinkTo cTf)], some ⟨[]⟩, false, false⟩ rfl (by decide)
  simpa using h

/-- Claim C6, counterexample: with a corrupt (non-absent) configuration file,
Remove does not propagate the read error — neither verbatim nor wrapped — and
instead proceeds on empty state and fails with the not-found-in-configuration
error, even though the link exists on the filesystem. -/
theorem c6_counterexample :
    Manager.Remove conf0 cLf ⟨[(cLf, Entry.symlinkTo cTf)], some ⟨[u0]⟩, true, false⟩ =
      (some (Err.notFoundInConfig uLf),
        ⟨[(cLf, Entry.symlinkTo cTf)], some ⟨[u0]⟩, true, false⟩) ∧
    (readStore ⟨[(cLf, Entry.symlinkTo cTf)], some ⟨[u0]⟩, true, false⟩).2 =
      some Err.readFailed ∧
    some (Err.notFoundInConfig uLf) ≠ some Err.readFailed ∧
    some (Err.notFoundInConfig uLf) ≠ some (Err.wrap Err.readFailed) := by
  refine ⟨rfl, rfl, by decide, by decide⟩

/-- Claim C6 as amended: the distinguished no-such-file read outcome is
treated as empty existing state and is not fatal; in Add the storage step
returns any other read error to the caller (unwrapped); but in Remove a read
failure of any kind is only logged and treated as empty existing state, the
operation then failing with the not-found-in-configuration error instead of
propagating the read error. -/
theorem c6_read_error_handling (cfg : Conf) (s : Symlink) (link absLink : Fpath)
    (w w2 : World)
    (h1 : w.readCorrupt = true)
    (h2 : AsAbsolute w.fs cfg.workingDir link = Except.ok absLink)
    (h3 : w2.readCorrupt = false) (h4 : w2.store = none) (h5 : w2.saveFails = false) :
    Manager.addToConfiguration cfg s w = (Except.error Err.readFailed, w) ∧
    Manager.Remove cfg link w =
      (some (Err.notFoundInConfig (UnexpandHome absLink cfg.userHome)), w) ∧
    Manager.addToConfiguration cfg s w2 =
      (Except.ok (LinkManager.Unexpand cfg.userHome s),
        { w2 with store := some ⟨[LinkManager.Unexpand cfg.userHome s]⟩ }) := by
  refine ⟨?_, ?_, ?_⟩
  · unfold Manager.addToConfiguration Manager.readConfiguration readStore
    rw [h1]
    simp
  · apply remove_no_match cfg link absLink w h2
    unfold Manager.readConfiguration readStore
    rw [h1]
    simp
  · unfold Manager.addToConfiguration Manager.readConfiguration readStore
    rw [h3, h4]
    simp only [Bool.false_eq_true, if_false]
    unfold addStore saveStore
    rw [h5]
    simp [h3]

/-- Claim C6 witness: instantiating the amended claim on a corrupt-read world
holding one record and a fresh world with no configuration file. -/
theorem c6_read_error_handling_witness :
    Manager.addToConfiguration conf0 s0
      ⟨[(cLf, Entry.symlinkTo cTf)], some ⟨[u0]⟩, true, false⟩ =
      (Except.error Err.readFailed,
        ⟨[(cLf, Entry.symlinkTo cTf)], some ⟨[u0]⟩, true, false⟩) ∧
    Manager.Remove conf0 cLf ⟨[(cLf, Entry.symlinkTo cTf)], some ⟨[u0]⟩, true, false⟩ =
      (some (Err.notFoundInConfig (UnexpandHome cLf cH)),
        ⟨[(cLf, Entry.symlinkTo cTf)], some ⟨[u0]⟩, true, false⟩) ∧
    Manager.addToConfiguration conf0 s0 ⟨[], none, false, false⟩ =
      (Except.ok (LinkManager.Unexpand cH s0),
        { World.mk [] none false false with store := some ⟨[LinkManager.Unexpand cH s0]⟩ }) :=
  c6_read_error_handling conf0 s0 cLf cLf
    ⟨[(cLf, Entry.symlinkTo cTf)], some ⟨[u0]⟩, true, false⟩
    ⟨[], none, false, false⟩ rfl rfl rfl rfl rfl

lemma list_ne_nil_append (p t : Fpath) (h : p ≠ []) : p ++ t ≠ [] := by
  cases p with
  | nil => exact absurd rfl h
  | cons c cs => simp

/-- Claim C9 (spec-modelled): a non-empty absolute target under the dotfiles
root given with an empty link derives the Link by re-rooting the
dotfiles-relative suffix under the user home; symmetrically an empty target
is derived from a link under home by re-rooting under the dotfiles root; and
whenever the given single path is not absolute or not under the respective
root — for instance New applied to an empty target and the link "." — the
underivable field is left as the empty string, with no error produced. -/
theorem c9_new_derivation (cfg : Conf) (sufT sufL tna lna : Fpath)
    (h1 : isAbs (cfg.dotfiles ++ sufT) = true)
    (h2 : cfg.dotfiles ++ sufT ≠ [])
    (h3 : isAbs (cfg.userHome ++ sufL) = true)
    (h4 : cfg.userHome ++ sufL ≠ [])
    (h5 : tna ≠ [])
    (h6 : isAbs tna = false ∨ startsWith tna cfg.dotfiles = false)
    (h7 : lna ≠ [])
    (h8 : isAbs lna = false ∨ startsWith lna cfg.userHome = false) :
    LinkManager.New cfg (cfg.dotfiles ++ sufT) [] =
      ⟨cfg.dotfiles ++ sufT, cfg.userHome ++ sufT⟩ ∧
    LinkManager.New cfg [] (cfg.userHome ++ sufL) =
      ⟨cfg.dotfiles ++ sufL, cfg.userHome ++ sufL⟩ ∧
    LinkManager.New cfg tna [] = ⟨tna, []⟩ ∧
    LinkManager.New cfg [] lna = ⟨[], lna⟩ := by
  refine ⟨?_, ?_, ?_, ?_⟩
  · unfold LinkManager.New
    simp only [h2, h1, startsWith_append, List.drop_left, Bool.and_self, ne_eq,
      not_true_eq_false, false_and, and_false, if_false, if_true, ite_false, ite_true]
  · unfold LinkManager.New
    simp only [h4, h3, startsWith_append, List.drop_left, Bool.and_self, ne_eq,
      not_true_eq_false, false_and, and_false, if_false, if_true, ite_false, ite_true]
  · unfold LinkManager.New
    rcases h6 with h6 | h6 <;> simp [h5, h6]
  · unfold LinkManager.New
    rcases h8 with h8 | h8 <;> simp [h7, h8]

/-- Claim C9 witness: with home "/h" and dotfiles root "/h/d", the target
"/h/d/f" derives the link "/h/f", the link "/h/f" derives the target
"/h/d/f", the absolute target "/x" outside the dotfiles root leaves the link
empty, and the non-absolute link "." leaves the target empty. -/
theorem c9_new_derivation_witness :
    LinkManager.New conf0 (cD ++ ['/', 'f']) [] = ⟨cD ++ ['/', 'f'], cH ++ ['/', 'f']⟩ ∧
    LinkManager.New conf0 [] (cH ++ ['/', 'f']) = ⟨cD ++ ['/', 'f'], cH ++ ['/', 'f']⟩ ∧
    LinkManager.New conf0 ['/', 'x'] [] = ⟨['/', 'x'], []⟩ ∧
    LinkManager.New conf0 [] ['.'] = ⟨[], ['.']⟩ :=
  c9_new_derivation conf0 ['/', 'f'] ['/', 'f'] ['/', 'x'] ['.']
    rfl (by decide) rfl (by decide) (by decide) (Or.inr (by decide))
    (by decide) (Or.inl rfl)

lemma eqSymlink_refl (a : Symlink) : eqSymlink a a = true := by
  simp [eqSymlink]

lemma addToConfiguration_stable (cfg : Conf) (n : Symlink) (w : World) (c : Config)
    (h1 : w.readCorrupt = false) (h2 : w.store = some c)
    (h3 : c.Symlinks.any
      (fun ex => eqSymlink (LinkManager.Unexpand cfg.userHome n) ex) = true) :
    Manager.addToConfiguration cfg n w =
      (Except.ok (LinkManager.Unexpand cfg.userHome n), w) := by
  unfold Manager.addToConfiguration Manager.readConfiguration readStore
  rw [h1, h2]
  simp only [Bool.false_eq_true, if_false]
  unfold addStore
  simp [h3]

/-- Claim C10: when the unexpanded pair of a new Add is already present in
the persisted set, Link Manager Ensure still runs before the duplicate check:
the Add succeeds, the filesystem afterwards holds the converged symlink (a
missing or stale link at the Link path has been recreated), and the persisted
store is exactly the one read — storage is not rewritten. -/
theorem c10_repeated_add_reconverges (cfg : Conf) (t loc absT : Fpath)
    (w : World) (fs2 : Fs) (c : Config)
    (h1 : AsAbsolute w.fs cfg.workingDir t = Except.ok absT)
    (h2 : LinkManager.Ensure (LinkManager.New cfg absT loc) w.fs = Except.ok fs2)
    (h3 : w.readCorrupt = false) (h4 : w.store = some c)
    (h5 : c.Symlinks.any (fun ex =>
      eqSymlink (LinkManager.Unexpand cfg.userHome (LinkManager.New cfg absT loc)) ex)
      = true) :
    Manager.Add cfg t loc w =
      (Except.ok (LinkManager.New cfg absT loc), { w with fs := fs2 }) ∧
    lookupFs fs2 (LinkManager.New cfg absT loc).Link =
      some (Entry.symlinkTo (LinkManager.New cfg absT loc).Target) := by
  refine ⟨?_, ensure_ok_lookup _ _ _ h2⟩
  unfold Manager.Add
  rw [h1]
  simp only [h2]
  rw [addToConfiguration_stable cfg (LinkManager.New cfg absT loc) { w with fs := fs2 } c
    h3 h4 h5]

/-- Claim C10 witness: the record is already stored in tilde form but the
on-disk symlink went stale (it points at "/h/o"); the repeated Add succeeds,
recreates the symlink to the right target, and leaves the store as it was. -/
theorem c10_repeated_add_reconverges_witness :
    Manager.Add conf0 cTf []
      ⟨[(cTf, Entry.file), (cLf, Entry.symlinkTo ['/', 'h', '/', 'o'])],
        some ⟨[u0]⟩, false, false⟩ =
      (Except.ok (LinkManager.New conf0 cTf []),
        { World.mk [(cTf, Entry.file), (cLf, Entry.symlinkTo ['/', 'h', '/', 'o'])]
            (some ⟨[u0]⟩) false false with
          fs := [(cTf, Entry.file), (cLf, Entry.symlinkTo cTf)] }) ∧
    lookupFs [(cTf, Entry.file), (cLf, Entry.symlinkTo cTf)]
      (LinkManager.New conf0 cTf []).Link =
      some (Entry.symlinkTo (LinkManager.New conf0 cTf []).Target) :=
  c10_repeated_add_reconverges conf0 cTf [] cTf
    ⟨[(cTf, Entry.file), (cLf, Entry.symlinkTo ['/', 'h', '/', 'o'])],
      some ⟨[u0]⟩, false, false⟩
    [(cTf, Entry.file), (cLf, Entry.symlinkTo cTf)] ⟨[u0]⟩
    rfl rfl rfl rfl (by decide)

lemma addToConfiguration_ok_elim (cfg : Conf) (n : Symlink) (w : World)
    (r : Symlink) (w3 : World)
    (h : Manager.addToConfiguration cfg n w = (Except.ok r, w3)) :
    r = LinkManager.Unexpand cfg.userHome n ∧
    w3.fs = w.fs ∧ w3.readCorrupt = w.readCorrupt ∧ w3.saveFails = w.saveFails ∧
    w.readCorrupt = false ∧
    (∃ c, w3.store = some c ∧ c.Symlinks.any (fun ex => eqSymlink r ex) = true) ∧
    (pairCount w.store r ≤ 1 → pairCount w3.store r = 1) := by
  unfold Manager.addToConfiguration Manager.readConfiguration readStore at h
  cases hrc : w.readCorrupt with
  | true =>
    rw [hrc] at h
    simp at h
  | false =>
    rw [hrc] at h
    simp only [Bool.false_eq_true, if_false] at h
    cases hst : w.store with
    | none =>
      rw [hst] at h
      unfold addStore saveStore at h
      cases hsf : w.saveFails with
      | true =>
        rw [hsf] at h
        simp at h
      | false =>
        rw [hsf] at h
        simp at h
        obtain ⟨hr, hw⟩ := h
        subst hw
        subst hr
        refine ⟨rfl, rfl, hrc, rfl, rfl,
          ⟨⟨[LinkManager.Unexpand cfg.userHome n]⟩, rfl, by simp [eqSymlink_refl]⟩, ?_⟩
        intro _
        simp [pairCount, List.countP_cons, eqSymlink_refl]
    | some c =>
      rw [hst] at h
      unfold addStore saveStore at h
      cases hany : c.Symlinks.any (fun ex =>
          eqSymlink (LinkManager.Unexpand cfg.userHome n) ex) with
      | true =>
        simp [hany] at h
        obtain ⟨hr, hw⟩ := h
        subst hw
        subst hr
        refine ⟨rfl, rfl, hrc, rfl, rfl, ⟨c, hst, hany⟩, ?_⟩
        intro hle
        rw [hst]
        have hpos : 0 < c.Symlinks.countP
            (fun x => eqSymlink (LinkManager.Unexpand cfg.userHome n) x) := by
          rw [List.countP_pos]
          rw [List.any_eq_true] at hany
          obtain ⟨x, hx, hpx⟩ := hany
          exact ⟨x, hx, hpx⟩
        have hle' : c.Symlinks.countP
            (fun x => eqSymlink (LinkManager.Unexpand cfg.userHome n) x) ≤ 1 := hle
        exact Nat.le_antisymm hle' hpos
      | false =>
        cases hsf : w.saveFails with
        | true =>
          simp [hany, hsf] at h
        | false =>
          simp [hany, hsf] at h
          obtain ⟨hr, hw⟩ := h
          subst hw
          subst hr
          refine ⟨rfl, rfl, hrc, rfl, rfl,
            ⟨⟨c.Symlinks ++ [LinkManager.Unexpand cfg.userHome n]⟩, rfl,
              by simp [eqSymlink_refl]⟩, ?_⟩
          intro _
          have hz : c.Symlinks.countP
              (fun x => eqSymlink (LinkManager.Unexpand cfg.userHome n) x) = 0 := by
            rw [List.countP_eq_zero]
            intro a ha
            rw [List.any_eq_false] at hany
            exact hany a ha
          simp [pairCount, List.countP_append, hz, List.countP_cons, eqSymlink_refl]

/-- Claim C5, counterexample: adding the same target twice succeeds both
times and stores exactly one record, but the value Add returns is the
expanded symlink built by New, not the existing unexpanded record held in
the persisted set — the two differ whenever the paths lie under home. -/
theorem c5_counterexample :
    Manager.Add conf0 cTf [] ⟨[(cTf, Entry.file)], none, false, false⟩ =
      (Except.ok s0,
        ⟨[(cTf, Entry.file), (cLf, Entry.symlinkTo cTf)], some ⟨[u0]⟩, false, false⟩) ∧
    Manager.Add conf0 cTf []
      ⟨[(cTf, Entry.file), (cLf, Entry.symlinkTo cTf)], some ⟨[u0]⟩, false, false⟩ =
      (Except.ok s0,
        ⟨[(cTf, Entry.file), (cLf, Entry.symlinkTo cTf)], some ⟨[u0]⟩, false, false⟩) ∧
    LinkManager.Unexpand cH s0 = u0 ∧
    s0 ≠ u0 := by
  refine ⟨rfl, rfl, rfl, by decide⟩

/-- Claim C5 as amended: a successful Add followed by an Add with the same
inputs returns the same symlink (the expanded record built by New) both
times, the second call rewrites neither the storage nor the filesystem (the
world is unchanged), and — provided the pre-state held at most one record
for the unexpanded pair, as Add itself guarantees — the persisted set
afterwards holds exactly one record for that pair. -/
theorem c5_add_idempotent (cfg : Conf) (t loc : Fpath) (w : World)
    (s : Symlink) (w1 : World)
    (h : Manager.Add cfg t loc w = (Except.ok s, w1))
    (hcount : pairCount w.store (LinkManager.Unexpand cfg.userHome s) ≤ 1) :
    Manager.Add cfg t loc w1 = (Except.ok s, w1) ∧
    pairCount w1.store (LinkManager.Unexpand cfg.userHome s) = 1 := by
  unfold Manager.Add at h
  cases habs : AsAbsolute w.fs cfg.workingDir t with
  | error e =>
    rw [habs] at h
    simp at h
  | ok absT =>
    simp only [habs] at h
    cases hens : LinkManager.Ensure (LinkManager.New cfg absT loc) w.fs with
    | error e =>
      simp only [hens] at h
      simp at h
    | ok fs2 =>
      simp only [hens] at h
      cases hadd : Manager.addToConfiguration cfg (LinkManager.New cfg absT loc)
          { w with fs := fs2 } with
      | mk res w3 =>
        simp only [hadd] at h
        cases res with
        | error e => simp at h
        | ok r =>
          simp at h
          obtain ⟨hs, hw1⟩ := h
          subst hs
          subst hw1
          obtain ⟨hru, hfs, hrc3, hsf3, hrcw, ⟨c, hstc, hanyc⟩, hcnt⟩ :=
            addToConfiguration_ok_elim cfg (LinkManager.New cfg absT loc)
              { w with fs := fs2 } r w3 hadd
          have hfs2 : w3.fs = fs2 := hfs
          have hlook : (lookupFs fs2 absT).isSome = true := by
            obtain ⟨_, hsome⟩ := asAbsolute_ok_elim w.fs cfg.workingDir t absT habs
            exact ensure_preserves_isSome (LinkManager.New cfg absT loc) w.fs fs2 absT
              hens hsome
          have habs2 : AsAbsolute w3.fs cfg.workingDir t = Except.ok absT := by
            rw [hfs2]
            exact asAbsolute_stable w.fs fs2 cfg.workingDir t absT habs hlook
          have hens2 : LinkManager.Ensure (LinkManager.New cfg absT loc) w3.fs =
              Except.ok w3.fs := by
            rw [hfs2]
            exact ensure_idem (LinkManager.New cfg absT loc) w.fs fs2 hens
          have hanyc' : c.Symlinks.any (fun ex =>
              eqSymlink (LinkManager.Unexpand cfg.userHome
                (LinkManager.New cfg absT loc)) ex) = true := by
            rw [← hru]
            exact hanyc
          have hadd2 : Manager.addToConfiguration cfg (LinkManager.New cfg absT loc) w3 =
              (Except.ok (LinkManager.Unexpand cfg.userHome
                (LinkManager.New cfg absT loc)), w3) :=
            addToConfiguration_stable cfg (LinkManager.New cfg absT loc) w3 c
              (by rw [hrc3]; exact hrcw) hstc hanyc'
          constructor
          · unfold Manager.Add
            rw [habs2]
            simp only [hens2]
            have hw3eq : { w3 with fs := w3.fs } = w3 := rfl
            rw [hw3eq, hadd2]
          · have hcnt' := hcnt (by rw [← hru] at hcount; exact hcount)
            rw [← hru]
            exact hcnt'

/-- Claim C5 witness: instantiating the amended claim on the concrete first
Add of the counterexample scenario. -/
theorem c5_add_idempotent_witness :
    Manager.Add conf0 cTf []
      ⟨[(cTf, Entry.file), (cLf, Entry.symlinkTo cTf)], some ⟨[u0]⟩, false, false⟩ =
      (Except.ok s0,
        ⟨[(cTf, Entry.file), (cLf, Entry.symlinkTo cTf)], some ⟨[u0]⟩, false, false⟩) ∧
    pairCount (some ⟨[u0]⟩) (LinkManager.Unexpand conf0.userHome s0) = 1 :=
  c5_add_idempotent conf0 cTf [] ⟨[(cTf, Entry.file)], none, false, false⟩ s0
    ⟨[(cTf, Entry.file), (cLf, Entry.symlinkTo cTf)], some ⟨[u0]⟩, false, false⟩
    rfl (by decide)
